import Mathlib

/-!
Verification of the hOCR parser (`hocr_parser`): a shallow embedding of
`src/hocr_parser/parser.py` (generic attribute-driven tree, `HOCRNode`),
`src/hocr_parser/past.py` (compatibility equality layer, `HOCRElement`) and
`src/src/hocr_parser/parser.py` (schema-driven tree, `HOCRElement` classes).

Python floats are modelled as exact rationals (`ℚ`); the inputs exercised
here are small decimal literals where `float` conversion is exact.
Character predicates (`str.isdigit`, `str.lower`, whitespace, regex word
characters) are modelled over their ASCII behaviour, which covers every
string the hOCR grammar manipulates.
-/

namespace HocrParser

/-- Python whitespace for `str.split()` / `str.strip()` and the regex class
`\s`, restricted to ASCII. -/
def pyIsSpace (c : Char) : Bool :=
  c = ' ' || c = '\t' || c = '\n' || c = '\r' || c = '\x0b' || c = '\x0c'

/-- `str.lower` on a single character (ASCII letters). -/
def pyLowerChar (c : Char) : Char :=
  if 'A' ≤ c ∧ c ≤ 'Z' then Char.ofNat (c.toNat + 32) else c

/-- `str.lower`. -/
def pyLower (s : String) : String :=
  String.mk (s.toList.map pyLowerChar)

/-- `str.strip()`: drop leading and trailing whitespace. -/
def pyStrip (s : String) : String :=
  String.mk (((s.toList.dropWhile pyIsSpace).reverse.dropWhile pyIsSpace).reverse)

/-- Helper for `str.split()` (no argument): accumulates the current token
(in reverse) while scanning. -/
def splitWSAux : List Char → List Char → List String
  | [], acc => if acc.isEmpty then [] else [String.mk acc.reverse]
  | c :: cs, acc =>
    if pyIsSpace c then
      if acc.isEmpty then splitWSAux cs []
      else String.mk acc.reverse :: splitWSAux cs []
    else splitWSAux cs (c :: acc)

/-- `str.split()` with no argument: split on runs of whitespace, no empty
tokens. -/
def pySplitWS (s : String) : List String :=
  splitWSAux s.toList []

/-- `str.isdigit()` (ASCII): non-empty and all decimal digits. -/
def pyIsDigitStr (s : String) : Bool :=
  !s.toList.isEmpty && s.toList.all Char.isDigit

/-- Value of a decimal digit string. -/
def digitsToNat (cs : List Char) : Nat :=
  cs.foldl (fun a c => 10 * a + (c.toNat - '0'.toNat)) 0

/-- `HOCRNode._parse_confidence` (parser.py lines 81-97) as a pure
function returning the confidence it would assign for one property
string, or `none` when it returns without assigning:
split on whitespace; require more than one token; require the first
token, lower-cased, to be one of `nlp`, `x_confs`, `x_wconf`; require
every further token to satisfy `isdigit`; result is
`sum(confidences) / len(confidences)` (Python 3 true division, modelled
exactly in `ℚ`). -/
def parse_confidence (s : String) : Option ℚ :=
  match pySplitWS s with
  | [] => none
  | [_] => none
  | k :: rest =>
    if pyLower k ∈ ["nlp", "x_confs", "x_wconf"] then
      if rest.all pyIsDigitStr then
        some ((rest.map (fun t => (digitsToNat t.toList : ℚ))).sum / (rest.length : ℚ))
      else none
    else none

/-! ### The bbox regex

`COORDINATES_PATTERN = \bbbox\s+(-?[0-9.]+)\s+(-?[0-9.]+)\s+(-?[0-9.]+)\s+(-?[0-9.]+)\b`
used with `re.search`.  The pattern is deterministic except for the final
`\b`, which can force the last greedy group to backtrack; the model
reproduces exactly that backtracking. -/

/-- Regex `\w` (ASCII). -/
def isWordChar (c : Char) : Bool := c.isAlphanum || c = '_'

/-- Character class `[0-9.]` of the capture groups. -/
def isNumChar (c : Char) : Bool := c.isDigit || c = '.'

/-- `\b` between a matched character and the following character
(`none` = end of input). -/
def wordBoundary (c : Char) (next : Option Char) : Bool :=
  match next with
  | some d => isWordChar c != isWordChar d
  | none => isWordChar c

/-- `\s+`: require at least one whitespace character, consume the maximal
run. -/
def matchSpaces (cs : List Char) : Option (List Char) :=
  let (sp, rest) := cs.span pyIsSpace
  if sp.isEmpty then none else some rest

/-- One non-final capture group `-?[0-9.]+` (greedy; no backtracking is
possible because `[0-9.]`, `-` and `\s` are disjoint). Returns the group
text and the remaining input. -/
def matchGroup (cs : List Char) : Option (List Char × List Char) :=
  let (sign, cs₁) := match cs with
    | '-' :: t => (['-'], t)
    | _ => ([], cs)
  let (run, rest) := cs₁.span isNumChar
  if run.isEmpty then none else some (sign ++ run, rest)

/-- Backtracking for the final group: largest `k ≥ 1` such that taking
the first `k` characters of the greedy run leaves a word boundary. -/
def pickK (run : List Char) (next : Option Char) : Nat → Option Nat
  | 0 => none
  | k + 1 =>
    match run.get? k with
    | none => pickK run next k
    | some c =>
      let after := match run.get? (k + 1) with
        | some d => some d
        | none => next
      if wordBoundary c after then some (k + 1) else pickK run next k

/-- Attempt to match `bbox\s+G\s+G\s+G\s+G\b` at the start of `cs`
(the `\b` before `bbox` is checked by the caller). Returns the four
captured groups. -/
def matchBBoxAt (cs : List Char) : Option (List Char × List Char × List Char × List Char) :=
  match cs with
  | 'b' :: 'b' :: 'o' :: 'x' :: rest =>
    match matchSpaces rest with
    | none => none
    | some rest₁ =>
      match matchGroup rest₁ with
      | none => none
      | some (g1, rest₂) =>
        match matchSpaces rest₂ with
        | none => none
        | some rest₃ =>
          match matchGroup rest₃ with
          | none => none
          | some (g2, rest₄) =>
            match matchSpaces rest₄ with
            | none => none
            | some rest₅ =>
              match matchGroup rest₅ with
              | none => none
              | some (g3, rest₆) =>
                match matchSpaces rest₆ with
                | none => none
                | some rest₇ =>
                  let (sign, rest₈) := match rest₇ with
                    | '-' :: t => (['-'], t)
                    | _ => ([], rest₇)
                  let (run, after) := rest₈.span isNumChar
                  if run.isEmpty then none
                  else
                    match pickK run after.head? run.length with
                    | none => none
                    | some k => some (g1, g2, g3, sign ++ run.take k)
  | _ => none

/-- `re.search`: try the pattern at every position, leftmost match wins;
`prev` is the previous character, used for the leading `\b` (which must
separate a non-word/none character from the `b` of `bbox`). -/
def searchBBoxAux : Option Char → List Char → Option (List Char × List Char × List Char × List Char)
  | _, [] => none
  | prev, c :: rest =>
    let boundaryOk := match prev with
      | none => true
      | some p => !isWordChar p
    match (if boundaryOk then matchBBoxAt (c :: rest) else none) with
    | some r => some r
    | none => searchBBoxAux (some c) rest

/-- `COORDINATES_PATTERN.search(string)`. -/
def searchBBox (s : String) : Option (List Char × List Char × List Char × List Char) :=
  searchBBoxAux none s.toList

/-- Python `float()` restricted to the `-?[0-9.]+` shapes the regex
groups can produce: an optional sign, digits with at most one dot and at
least one digit.  `none` models a `ValueError`. -/
def pyFloatNum (cs : List Char) : Option ℚ :=
  let (neg, cs₁) := match cs with
    | '-' :: t => (true, t)
    | _ => (false, cs)
  let (ip, rest) := cs₁.span Char.isDigit
  match rest with
  | [] =>
    if ip.isEmpty then none
    else some (if neg then -(digitsToNat ip : ℚ) else (digitsToNat ip : ℚ))
  | '.' :: fp =>
    if fp.all Char.isDigit then
      if ip.isEmpty && fp.isEmpty then none
      else
        let mag : ℚ := (digitsToNat ip : ℚ) + (digitsToNat fp : ℚ) / ((10 : ℚ) ^ fp.length)
        some (if neg then -mag else mag)
    else none
  | _ => none

/-- Python `int()` on a float: truncation toward zero. -/
def pyTrunc (q : ℚ) : Int :=
  if q < 0 then -(⌊-q⌋) else ⌊q⌋

/-- `HOCRNode._parse_coordinates` (parser.py lines 71-79): search the
string with the bbox pattern; on a match overwrite the coordinates with
`int(float(group))` for each group; on no match keep the old value.
`Except.error ()` models the uncaught `ValueError` raised by `float()`
on a group such as `"1.2.3"`. -/
def parse_coordinates (old : Int × Int × Int × Int) (s : String) :
    Except Unit (Int × Int × Int × Int) :=
  match searchBBox s with
  | none => Except.ok old
  | some (g1, g2, g3, g4) =>
    match pyFloatNum g1, pyFloatNum g2, pyFloatNum g3, pyFloatNum g4 with
    | some q1, some q2, some q3, some q4 =>
      Except.ok (pyTrunc q1, pyTrunc q2, pyTrunc q3, pyTrunc q4)
    | _, _, _, _ => Except.error ()

/-! ### Markup model

The external collaborator (BeautifulSoup with the `html.parser` builder) is
modelled by a tree of tags with attribute lists and raw text segments
(`NavigableString`s). -/

/-- A BeautifulSoup node: a `NavigableString` or a tag with attributes and
contents. -/
inductive Markup : Type where
  | text : String → Markup
  | elem : String → List (String × String) → List Markup → Markup

/-- `node.attrs.get(key)`: first binding of the attribute. -/
def attrLookup (attrs : List (String × String)) (k : String) : Option String :=
  match attrs.find? (fun kv => kv.1 = k) with
  | some kv => some kv.2
  | none => none

/-- `isinstance(node, NavigableString)`. -/
def Markup.isText : Markup → Bool
  | Markup.text _ => true
  | Markup.elem _ _ _ => false

/-- `node.has_attr("id")` (false on a `NavigableString`, which the code
never asks). -/
def Markup.hasId : Markup → Bool
  | Markup.text _ => false
  | Markup.elem _ attrs _ => (attrLookup attrs "id").isSome

mutual

/-- All raw string segments of a subtree, in document order (the
`self.strings` generator underlying `get_text`). -/
def collectStrings : Markup → List String
  | Markup.text s => [s]
  | Markup.elem _ _ cs => collectStringsList cs

def collectStringsList : List Markup → List String
  | [] => []
  | m :: ms => collectStrings m ++ collectStringsList ms

end

/-- `node.get_text(strip=True)`: every string segment stripped, segments
that strip to nothing skipped, joined with the empty separator. -/
def getTextStrip (m : Markup) : String :=
  String.join (((collectStrings m).map pyStrip).filter (fun s => s ≠ ""))

/-- BeautifulSoup `tag.string`: the single string child, descending
through a lone tag child; `none` when there is not exactly one child. -/
def Markup.str : Markup → Option String
  | Markup.text s => some s
  | Markup.elem _ _ [c] => Markup.str c
  | Markup.elem _ _ _ => none

/-! ### The generic attribute-driven tree (`HOCRNode`, parser.py) -/

/-- `CHILD_STRING_SEPARATORS` (parser.py lines 16-21). -/
def CHILD_STRING_SEPARATORS : List (String × String) :=
  [("ocr_page", "\n\n"), ("ocr_area", "\n"), ("ocr_par", "\n"), ("ocr_line", " ")]

/-- `CHILD_STRING_SEPARATORS.get(klass, "\n")`. -/
def getSep (klass : String) : String :=
  match CHILD_STRING_SEPARATORS.lookup klass with
  | some sep => sep
  | none => "\n"

/-- The constructed `HOCRNode`: its markup, the markup of the node passed
as `parent` (object identity is modelled by the underlying markup), and
the parsed fields. -/
structure HOCRNode : Type where
  html : Markup
  parent : Option Markup
  id : Option String
  ocr_class : String
  props : List String
  coordinates : Int × Int × Int × Int
  confidence : Option ℚ
  children : List HOCRNode

/-- `self._html.attrs.get("class", [""])[0]`: BeautifulSoup splits the
`class` attribute on whitespace into a token list; an absent attribute
defaults to `[""]`; an empty token list makes `[0]` raise `IndexError`
(modelled by `Except.error`). -/
def getOcrClass (attrs : List (String × String)) : Except Unit String :=
  match attrLookup attrs "class" with
  | none => Except.ok ""
  | some v =>
    match pySplitWS v with
    | [] => Except.error ()
    | c :: _ => Except.ok c

/-- Helper for `str.split(";")`: accumulates the current piece (in
reverse). -/
def splitSemiAux : List Char → List Char → List String
  | [], acc => [String.mk acc.reverse]
  | c :: cs, acc =>
    if c = ';' then String.mk acc.reverse :: splitSemiAux cs []
    else splitSemiAux cs (c :: acc)

/-- `str.split(";")`: split on every semicolon, keeping empty pieces. -/
def pySplitSemicolon (s : String) : List String :=
  splitSemiAux s.toList []

/-- The property list of `_parse_properties` (parser.py lines 62-65):
`[]` for an absent or falsy (empty) `title`, otherwise the `;`-split
pieces, each stripped. -/
def propsOfTitle : Option String → List String
  | none => []
  | some t => if t = "" then [] else (pySplitSemicolon t).map pyStrip

/-- The loop body of `_parse_properties` (lines 67-69): per property,
`_parse_coordinates` then `_parse_confidence`, each overwriting its field
only on success. -/
def scanProps : List String → (Int × Int × Int × Int) × Option ℚ →
    Except Unit ((Int × Int × Int × Int) × Option ℚ)
  | [], st => Except.ok st
  | p :: ps, st =>
    match parse_coordinates st.1 p with
    | Except.error e => Except.error e
    | Except.ok coords =>
      scanProps ps (coords,
        match parse_confidence p with
        | some c => some c
        | none => st.2)

/-- `_parse_properties` (parser.py lines 62-69): split the title, then
scan every property string, starting from the defaults
`(0,0,0,0)` / absent. -/
def parse_properties (title : Option String) :
    Except Unit (List String × ((Int × Int × Int × Int) × Option ℚ)) :=
  match scanProps (propsOfTitle title) ((0, 0, 0, 0), none) with
  | Except.error e => Except.error e
  | Except.ok st => Except.ok (propsOfTitle title, st)

mutual

/-- `HOCRNode.__init__` / `_parse` (parser.py lines 42-60): extract `id`,
`ocr_class` and the title properties, then visit the direct contents with
`_create_child_node`.  A `NavigableString` argument has no `attrs` and is
never constructed by the code. -/
def build : Markup → Option Markup → Except Unit HOCRNode
  | Markup.text _, _ => Except.error ()
  | Markup.elem tag attrs cs, parent =>
    match getOcrClass attrs with
    | Except.error e => Except.error e
    | Except.ok klass =>
      match parse_properties (attrLookup attrs "title") with
      | Except.error e => Except.error e
      | Except.ok (props, st) =>
        match buildChildren cs (Markup.elem tag attrs cs) with
        | Except.error e => Except.error e
        | Except.ok children =>
          Except.ok ⟨Markup.elem tag attrs cs, parent, attrLookup attrs "id",
            klass, props, st.1, st.2, children⟩

/-- The contents loop of `_parse` with `_create_child_node` (parser.py
lines 59-60 and 99-106): skip `NavigableString`s and tags without an
`id` attribute; every admitted tag is built with `parent=self`. -/
def buildChildren : List Markup → Markup → Except Unit (List HOCRNode)
  | [], _ => Except.ok []
  | Markup.text _ :: rest, m => buildChildren rest m
  | x@(Markup.elem _ a _) :: rest, m =>
    if (attrLookup a "id").isSome then
      match build x (some m) with
      | Except.error e => Except.error e
      | Except.ok child =>
        match buildChildren rest m with
        | Except.error e => Except.error e
        | Except.ok l => Except.ok (child :: l)
    else buildChildren rest m

end

mutual

/-- `HOCRNode.ocr_text` (parser.py lines 108-117): a node without
children returns `get_text(strip=True)` of its markup; otherwise the
children's texts joined with the separator looked up by `ocr_class`
(default `"\n"`). -/
def ocr_text : HOCRNode → String
  | HOCRNode.mk html _ _ klass _ _ _ children =>
    if children.isEmpty then getTextStrip html
    else String.intercalate (getSep klass) (ocrTextList children)

/-- The list comprehension `[child.ocr_text for child in self._children]`. -/
def ocrTextList : List HOCRNode → List String
  | [] => []
  | c :: cs => ocr_text c :: ocrTextList cs

end

/-- `HOCRElement.__eq__` (past.py lines 14-18 and the schema variant's
lines 29-33): both operands are `HOCRElement`s, so equality is
`self._id == other._id`; Python `None == None` is `True`, captured by
`Option.beq`. -/
def hocrEq (a b : HOCRNode) : Bool :=
  a.id == b.id

/-! ### The schema-driven tree (`src/src/hocr_parser/parser.py`) -/

/-- The six structural roles of the schema-driven class hierarchy. -/
inductive Role : Type where
  | document | page | area | paragraph | line | word
deriving DecidableEq

/-- A schema-variant node: its class (role), its markup, and its
`_elements` list. -/
inductive SNode : Type where
  | mk : Role → Markup → List SNode → SNode

def SNode.role : SNode → Role
  | SNode.mk r _ _ => r

def SNode.html : SNode → Markup
  | SNode.mk _ h _ => h

def SNode.elements : SNode → List SNode
  | SNode.mk _ _ es => es

mutual

/-- The `ocr_text` properties of the schema classes
(`HOCRDocument`/`Page` join with `"\n\n"`, `Area`/`Paragraph` with
`"\n"`, `Line` with `" "`, and `Word` returns `self._hocr_html.string`
or `""`). -/
def ocrTextS : SNode → String
  | SNode.mk Role.document _ es => String.intercalate "\n\n" (ocrTextSList es)
  | SNode.mk Role.page _ es => String.intercalate "\n\n" (ocrTextSList es)
  | SNode.mk Role.area _ es => String.intercalate "\n" (ocrTextSList es)
  | SNode.mk Role.paragraph _ es => String.intercalate "\n" (ocrTextSList es)
  | SNode.mk Role.line _ es => String.intercalate " " (ocrTextSList es)
  | SNode.mk Role.word h _ =>
    match Markup.str h with
    | some t => if t = "" then "" else t
    | none => ""

/-- The list comprehension `[child.ocr_text for child in self._elements]`. -/
def ocrTextSList : List SNode → List String
  | [] => []
  | n :: ns => ocrTextS n :: ocrTextSList ns

end

/-- A direct child markup node is admitted by `_create_child_node` iff it
is not a `NavigableString` and has an `id` attribute. -/
def admissibleChild (c : Markup) : Bool :=
  !c.isText && c.hasId

/-- `x` occurs in the tree rooted at the first argument. -/
inductive Subnode : HOCRNode → HOCRNode → Prop where
  | refl (n : HOCRNode) : Subnode n n
  | child {n c x : HOCRNode} : c ∈ n.children → Subnode c x → Subnode n x

/-! ### Helper lemmas -/

theorem ocrTextList_eq_map (l : List HOCRNode) : ocrTextList l = l.map ocr_text := by
  induction l with
  | nil => rfl
  | cons c cs ih => simp [ocrTextList, ih]

theorem ocrTextSList_eq_map (l : List SNode) : ocrTextSList l = l.map ocrTextS := by
  induction l with
  | nil => rfl
  | cons c cs ih => simp [ocrTextSList, ih]

/-- Unfolding a successful `build` on a tag: every stored field is the
corresponding parse of the markup. -/
theorem build_elem_ok {t : String} {a : List (String × String)} {cs : List Markup}
    {p : Option Markup} {n : HOCRNode}
    (h : build (Markup.elem t a cs) p = Except.ok n) :
    n.html = Markup.elem t a cs ∧ n.parent = p ∧ n.id = attrLookup a "id" ∧
    getOcrClass a = Except.ok n.ocr_class ∧
    parse_properties (attrLookup a "title") =
      Except.ok (n.props, (n.coordinates, n.confidence)) ∧
    buildChildren cs (Markup.elem t a cs) = Except.ok n.children := by
  rw [build] at h
  cases hk : getOcrClass a with
  | error e => rw [hk] at h; exact absurd h (by simp)
  | ok klass =>
    rw [hk] at h
    cases hp : parse_properties (attrLookup a "title") with
    | error e => rw [hp] at h; exact absurd h (by simp)
    | ok pr =>
      rw [hp] at h
      obtain ⟨props, st⟩ := pr
      obtain ⟨coords, conf⟩ := st
      cases hc : buildChildren cs (Markup.elem t a cs) with
      | error e => rw [hc] at h; exact absurd h (by simp)
      | ok children =>
        rw [hc] at h
        cases h
        exact ⟨rfl, rfl, rfl, rfl, rfl, rfl⟩

/-- A successful `build` stores the markup it was given and the `parent`
argument. -/
theorem build_ok_html_parent {m : Markup} {p : Option Markup} {n : HOCRNode}
    (h : build m p = Except.ok n) : n.html = m ∧ n.parent = p := by
  cases m with
  | text s => rw [build] at h; exact absurd h (by simp)
  | elem t a cs => exact ⟨(build_elem_ok h).1, (build_elem_ok h).2.1⟩

/-- Every node in a successful `buildChildren` result was built from some
markup with `parent = some m`. -/
theorem buildChildren_mem_built {cs : List Markup} {m : Markup} {l : List HOCRNode}
    (h : buildChildren cs m = Except.ok l) :
    ∀ c ∈ l, ∃ mc, build mc (some m) = Except.ok c := by
  induction cs generalizing l with
  | nil => rw [buildChildren] at h; cases h; intro c hc; cases hc
  | cons x rest ih =>
    cases x with
    | text s => rw [buildChildren] at h; exact ih h
    | elem xt xa xcs =>
      rw [buildChildren] at h
      by_cases hid : (attrLookup xa "id").isSome
      · rw [if_pos hid] at h
        cases hb : build (Markup.elem xt xa xcs) (some m) with
        | error e => rw [hb] at h; exact absurd h (by simp)
        | ok child =>
          rw [hb] at h
          cases hr : buildChildren rest m with
          | error e => rw [hr] at h; exact absurd h (by simp)
          | ok l' =>
            rw [hr] at h
            cases h
            intro c hc
            rcases List.mem_cons.mp hc with hc | hc
            · subst hc; exact ⟨Markup.elem xt xa xcs, hb⟩
            · exact ih hr c hc
      · rw [if_neg hid] at h; exact ih h

/-- Every node of a constructed tree was itself constructed by `build`. -/
theorem subnode_built {root x : HOCRNode} (hs : Subnode root x) :
    ∀ m p, build m p = Except.ok root → ∃ mx px, build mx px = Except.ok x := by
  induction hs with
  | refl n => exact fun m p h => ⟨m, p, h⟩
  | child hc _ ih =>
    intro m p h
    cases m with
    | text s => rw [build] at h; exact absurd h (by simp)
    | elem t a cs =>
      obtain ⟨-, -, -, -, -, hbc⟩ := build_elem_ok h
      obtain ⟨mc, hmc⟩ := buildChildren_mem_built hbc _ hc
      exact ih mc (some (Markup.elem t a cs)) hmc

/-- A key not bound in the separator table falls back to `"\n"`. -/
theorem getSep_default {klass : String}
    (h : klass ∉ (["ocr_page", "ocr_area", "ocr_par", "ocr_line"] : List String)) :
    getSep klass = "\n" := by
  simp only [List.mem_cons, not_or] at h
  obtain ⟨h1, h2, h3, h4, -⟩ := h
  simp [getSep, CHILD_STRING_SEPARATORS, List.lookup,
    beq_eq_false_iff_ne.mpr h1, beq_eq_false_iff_ne.mpr h2,
    beq_eq_false_iff_ne.mpr h3, beq_eq_false_iff_ne.mpr h4]

/-- Splitting the property scan at a list decomposition. -/
theorem scanProps_append (l1 l2 : List String) (st : (Int × Int × Int × Int) × Option ℚ) :
    scanProps (l1 ++ l2) st =
      match scanProps l1 st with
      | Except.error e => Except.error e
      | Except.ok st' => scanProps l2 st' := by
  induction l1 generalizing st with
  | nil => simp [scanProps]
  | cons p ps ih =>
    simp only [List.cons_append, scanProps]
    cases parse_coordinates st.1 p with
    | error e => rfl
    | ok coords => exact ih _

/-- Properties that never overwrite coordinates leave them unchanged. -/
theorem scanProps_coords_const {l : List String} {st st' : (Int × Int × Int × Int) × Option ℚ}
    (hq : ∀ q ∈ l, ∀ old, parse_coordinates old q = Except.ok old)
    (h : scanProps l st = Except.ok st') : st'.1 = st.1 := by
  induction l generalizing st with
  | nil => rw [scanProps] at h; cases h; rfl
  | cons p ps ih =>
    rw [scanProps, hq p (List.mem_cons_self p ps) st.1] at h
    have h' : scanProps ps (st.1,
        match parse_confidence p with
        | some c => some c
        | none => st.2) = Except.ok st' := h
    have hres := ih (fun q hmem old => hq q (List.mem_cons_of_mem p hmem) old) h'
    exact hres

/-- Properties that never qualify for confidence leave it unchanged. -/
theorem scanProps_conf_const {l : List String} {st st' : (Int × Int × Int × Int) × Option ℚ}
    (hq : ∀ q ∈ l, parse_confidence q = none)
    (h : scanProps l st = Except.ok st') : st'.2 = st.2 := by
  induction l generalizing st with
  | nil => rw [scanProps] at h; cases h; rfl
  | cons p ps ih =>
    rw [scanProps] at h
    cases hc : parse_coordinates st.1 p with
    | error e => rw [hc] at h; exact absurd h (by simp)
    | ok coords =>
      rw [hc, hq p (List.mem_cons_self p ps)] at h
      have h' : scanProps ps (coords, st.2) = Except.ok st' := h
      have hres := ih (fun q hmem => hq q (List.mem_cons_of_mem p hmem)) h'
      exact hres

/-- A successful `parse_properties` is a successful scan of the split
title. -/
theorem parse_properties_ok {title : Option String} {props : List String}
    {st : (Int × Int × Int × Int) × Option ℚ}
    (h : parse_properties title = Except.ok (props, st)) :
    scanProps (propsOfTitle title) ((0, 0, 0, 0), none) = Except.ok st := by
  rw [parse_properties] at h
  cases hs : scanProps (propsOfTitle title) ((0, 0, 0, 0), none) with
  | error e => rw [hs] at h; exact absurd h (by simp)
  | ok st₀ => rw [hs] at h; cases h; rfl

/-! ### Claims -/

/-- C1: for every node whose role is in the separator table, `ocr_text`
of a node with at least one child is the children's recursively computed
texts joined in order with the role's separator: `Document` and `Page`
join with `"\n\n"`, `Area` and `Paragraph` with `"\n"`, `Line` with a
single space; a `Line` with `Word` children `"Hello"`/`"World"` gives
`"Hello World"`, and a `Page` with two `Area` subtrees with texts
`"A"`/`"B"` gives `"A\n\nB"`. -/
theorem C1_ocr_text_role_separators :
    (∀ (h : Markup) (es : List SNode), es ≠ [] →
      ocrTextS (SNode.mk Role.document h es) = String.intercalate "\n\n" (es.map ocrTextS)) ∧
    (∀ (h : Markup) (es : List SNode), es ≠ [] →
      ocrTextS (SNode.mk Role.page h es) = String.intercalate "\n\n" (es.map ocrTextS)) ∧
    (∀ (h : Markup) (es : List SNode), es ≠ [] →
      ocrTextS (SNode.mk Role.area h es) = String.intercalate "\n" (es.map ocrTextS)) ∧
    (∀ (h : Markup) (es : List SNode), es ≠ [] →
      ocrTextS (SNode.mk Role.paragraph h es) = String.intercalate "\n" (es.map ocrTextS)) ∧
    (∀ (h : Markup) (es : List SNode), es ≠ [] →
      ocrTextS (SNode.mk Role.line h es) = String.intercalate " " (es.map ocrTextS)) ∧
    ocrTextS (SNode.mk Role.line (Markup.elem "span" [] [])
      [SNode.mk Role.word (Markup.elem "span" [] [Markup.text "Hello"]) [],
       SNode.mk Role.word (Markup.elem "span" [] [Markup.text "World"]) []]) = "Hello World" ∧
    ocrTextS (SNode.mk Role.page (Markup.elem "div" [] [])
      [SNode.mk Role.area (Markup.elem "div" [] [])
        [SNode.mk Role.paragraph (Markup.elem "p" [] [])
          [SNode.mk Role.line (Markup.elem "span" [] [])
            [SNode.mk Role.word (Markup.elem "span" [] [Markup.text "A"]) []]]],
       SNode.mk Role.area (Markup.elem "div" [] [])
        [SNode.mk Role.paragraph (Markup.elem "p" [] [])
          [SNode.mk Role.line (Markup.elem "span" [] [])
            [SNode.mk Role.word (Markup.elem "span" [] [Markup.text "B"]) []]]]])
      = "A\n\nB" := by
  refine ⟨?_, ?_, ?_, ?_, ?_, rfl, rfl⟩ <;>
    exact fun h es _ => by rw [ocrTextS, ocrTextSList_eq_map]

/-- C1 witness: the document-role join rule applied to a concrete
non-empty child list. -/
theorem C1_witness :
    ([SNode.mk Role.word (Markup.elem "span" [] [Markup.text "hi"]) []] ≠ ([] : List SNode)) ∧
    ocrTextS (SNode.mk Role.document (Markup.elem "body" [] [])
        [SNode.mk Role.word (Markup.elem "span" [] [Markup.text "hi"]) []])
      = String.intercalate "\n\n"
          ([SNode.mk Role.word (Markup.elem "span" [] [Markup.text "hi"]) []].map ocrTextS) :=
  ⟨by simp, C1_ocr_text_role_separators.1 _ _ (by simp)⟩

/-- The confidence rule as the spec words it: the first
whitespace-separated token lower-cased must be one of `nlp`, `x_confs`,
`x_wconf`, there must be at least one further token, and every further
token must be entirely decimal digits; then the value is the arithmetic
mean of the further tokens. -/
def confidenceSpec (s : String) : Option ℚ :=
  match pySplitWS s with
  | [] => none
  | key :: samples =>
    if (pyLower key = "nlp" ∨ pyLower key = "x_confs" ∨ pyLower key = "x_wconf") ∧
        samples ≠ [] ∧ (∀ t ∈ samples, pyIsDigitStr t = true) then
      some ((samples.map (fun t => (digitsToNat t.toList : ℚ))).sum / (samples.length : ℚ))
    else none

/-- C2: confidence is set iff the first token, lower-cased, is a
recognized key, at least one further token exists, and every further
token is all decimal digits; the value is the arithmetic mean
(`"x_wconf 90 80"` gives `85`), and any failing token leaves confidence
absent without raising (`"x_wconf 90 abc"` gives `none`). -/
theorem C2_confidence_matches_spec :
    (∀ s : String, parse_confidence s = confidenceSpec s) ∧
    parse_confidence "x_wconf 90 80" = some 85 ∧
    parse_confidence "x_wconf 90 abc" = none := by
  refine ⟨fun s => ?_, ?_, rfl⟩
  · rcases h : pySplitWS s with _ | ⟨k, rest⟩
    · simp [parse_confidence, confidenceSpec, h]
    · rcases rest with _ | ⟨r, rs⟩
      · simp [parse_confidence, confidenceSpec, h]
      · have hcond : (pyLower k ∈ (["nlp", "x_confs", "x_wconf"] : List String)) ↔
            (pyLower k = "nlp" ∨ pyLower k = "x_confs" ∨ pyLower k = "x_wconf") := by simp
        have hall : ((r :: rs).all pyIsDigitStr = true) ↔
            (∀ t ∈ r :: rs, pyIsDigitStr t = true) := List.all_eq_true
        simp only [parse_confidence, confidenceSpec, h]
        split_ifs with h1 h2 h3 <;> try rfl
        · exact h3 ⟨hcond.mp h1, List.cons_ne_nil r rs, hall.mp h2⟩
        · rename_i hx
          exact h2 (hall.mpr hx.2.2)
        · rename_i hx
          exact h1 (hcond.mpr hx.1)
  · have h1 : parse_confidence "x_wconf 90 80"
        = some (((digitsToNat ['9', '0'] : ℚ) + ((digitsToNat ['8', '0'] : ℚ) + 0))
            / ((2 : ℕ) : ℚ)) := rfl
    rw [h1, show digitsToNat ['9', '0'] = 90 from rfl,
      show digitsToNat ['8', '0'] = 80 from rfl]
    norm_num

/-- The node built from `<p>x</p>` (no `id`). -/
def c4NodeA : HOCRNode :=
  ⟨Markup.elem "p" [] [Markup.text "x"], none, none, "", [], (0, 0, 0, 0), none, []⟩

/-- The node built from `<span>y</span>` (no `id`). -/
def c4NodeB : HOCRNode :=
  ⟨Markup.elem "span" [] [Markup.text "y"], none, none, "", [], (0, 0, 0, 0), none, []⟩

/-- C4 counterexample: two structurally distinct constructed nodes with
absent `id` compare EQUAL (`self._id == other._id` with both ids `None`
is `True` in Python), contradicting the claim that absent-id nodes are
never equal. -/
theorem C4_counterexample :
    build (Markup.elem "p" [] [Markup.text "x"]) none = Except.ok c4NodeA ∧
    build (Markup.elem "span" [] [Markup.text "y"]) none = Except.ok c4NodeB ∧
    c4NodeA.id = none ∧ c4NodeB.id = none ∧ c4NodeA ≠ c4NodeB ∧
    hocrEq c4NodeA c4NodeB = true := by
  refine ⟨?_, ?_, rfl, rfl, ?_, rfl⟩
  · simp [build, buildChildren, c4NodeA]; rfl
  · simp [build, buildChildren, c4NodeB]; rfl
  · intro h
    have hh := congrArg HOCRNode.html h
    simp only [c4NodeA, c4NodeB] at hh
    injection hh with ht
    exact absurd ht (by decide)

/-- C4 amended: node equality is exactly equality of the `id` fields;
identical non-absent ids compare equal, distinct ids compare unequal,
and two absent ids also compare equal (Python `None == None`). -/
theorem C4_eq_iff_id_eq : ∀ a b : HOCRNode, hocrEq a b = true ↔ a.id = b.id := by
  intro a b
  simp [hocrEq]

/-- C9: `ocr_text` is deterministic — building the same markup twice and
computing the text yields identical strings (the embedding is pure, so
there is no caching-related drift). -/
theorem C9_ocr_text_deterministic :
    ∀ (m : Markup) (t₁ t₂ : HOCRNode),
      build m none = Except.ok t₁ → build m none = Except.ok t₂ →
      ocr_text t₁ = ocr_text t₂ := by
  intro m t₁ t₂ h1 h2
  rw [h1] at h2
  cases h2
  rfl

/-- C9 witness: determinism at a concrete markup. -/
theorem C9_witness :
    build (Markup.elem "p" [("id", "q")] [Markup.text "hi"]) none
      = Except.ok (⟨Markup.elem "p" [("id", "q")] [Markup.text "hi"], none, some "q", "",
          [], (0, 0, 0, 0), none, []⟩ : HOCRNode) ∧
    ocr_text (⟨Markup.elem "p" [("id", "q")] [Markup.text "hi"], none, some "q", "",
        [], (0, 0, 0, 0), none, []⟩ : HOCRNode)
      = ocr_text (⟨Markup.elem "p" [("id", "q")] [Markup.text "hi"], none, some "q", "",
          [], (0, 0, 0, 0), none, []⟩ : HOCRNode) := by
  have hb : build (Markup.elem "p" [("id", "q")] [Markup.text "hi"]) none
      = Except.ok (⟨Markup.elem "p" [("id", "q")] [Markup.text "hi"], none, some "q", "",
          [], (0, 0, 0, 0), none, []⟩ : HOCRNode) := by
    simp [build, buildChildren]; rfl
  exact ⟨hb, C9_ocr_text_deterministic _ _ _ hb hb⟩

/-- C3 counterexample: a property string CONTAINING a well-formed
`bbox 7 8 9 10` substring does not get its coordinates set — the
leftmost regex match captures the field `1.2.3` (allowed by the
character class `[0-9.]`), whose `float()` conversion raises
`ValueError`, so surrounding text is not always tolerated. -/
theorem C3_counterexample :
    parse_coordinates (0, 0, 0, 0) "bbox 1.2.3 4 5 6 bbox 7 8 9 10" = Except.error () ∧
    "bbox 1.2.3 4 5 6 bbox 7 8 9 10" = "bbox 1.2.3 4 5 6 " ++ "bbox 7 8 9 10" :=
  ⟨rfl, rfl⟩

/-- C3 amended: coordinates are set from the LEFTMOST regex match only;
each captured field is converted with `float` and truncated toward zero
(not rounded), raising `ValueError` when a captured field (e.g.
`"1.2.3"`) is not float-parsable; with no match the previous value is
kept.  `"bbox 1 2 3 4"` gives `(1,2,3,4)`, `"bbox 1.9 2.1 3.9 4.1"`
gives `(1,2,3,4)`, a signed fractional `-1.5` truncates to `-1`, and
surrounding text around a clean match is tolerated. -/
theorem C3_coordinates_truncation :
    (∀ (old : Int × Int × Int × Int) (s : String), searchBBox s = none →
      parse_coordinates old s = Except.ok old) ∧
    (∀ (old : Int × Int × Int × Int) (s : String)
       (g1 g2 g3 g4 : List Char) (q1 q2 q3 q4 : ℚ),
      searchBBox s = some (g1, g2, g3, g4) →
      pyFloatNum g1 = some q1 → pyFloatNum g2 = some q2 →
      pyFloatNum g3 = some q3 → pyFloatNum g4 = some q4 →
      parse_coordinates old s = Except.ok (pyTrunc q1, pyTrunc q2, pyTrunc q3, pyTrunc q4)) ∧
    parse_coordinates (0, 0, 0, 0) "bbox 1 2 3 4" = Except.ok (1, 2, 3, 4) ∧
    parse_coordinates (0, 0, 0, 0) "bbox 1.9 2.1 3.9 4.1" = Except.ok (1, 2, 3, 4) ∧
    parse_coordinates (7, 7, 7, 7) "foo bbox -1.5 2 3 4 bar" = Except.ok (-1, 2, 3, 4) ∧
    parse_coordinates (7, 7, 7, 7) "x_wconf 90" = Except.ok (7, 7, 7, 7) := by
  have hnone : ∀ (old : Int × Int × Int × Int) (s : String), searchBBox s = none →
      parse_coordinates old s = Except.ok old := by
    intro old s h
    simp only [parse_coordinates, h]
  have hmatch : ∀ (old : Int × Int × Int × Int) (s : String)
      (g1 g2 g3 g4 : List Char) (q1 q2 q3 q4 : ℚ),
      searchBBox s = some (g1, g2, g3, g4) →
      pyFloatNum g1 = some q1 → pyFloatNum g2 = some q2 →
      pyFloatNum g3 = some q3 → pyFloatNum g4 = some q4 →
      parse_coordinates old s = Except.ok (pyTrunc q1, pyTrunc q2, pyTrunc q3, pyTrunc q4) := by
    intro old s g1 g2 g3 g4 q1 q2 q3 q4 hs h1 h2 h3 h4
    simp only [parse_coordinates, hs, h1, h2, h3, h4]
  refine ⟨hnone, hmatch, rfl, ?_, ?_, rfl⟩
  · have e1 : pyFloatNum ['1', '.', '9']
        = some ((digitsToNat ['1'] : ℚ) + (digitsToNat ['9'] : ℚ) / ((10 : ℚ) ^ (1 : ℕ))) := rfl
    have e2 : pyFloatNum ['2', '.', '1']
        = some ((digitsToNat ['2'] : ℚ) + (digitsToNat ['1'] : ℚ) / ((10 : ℚ) ^ (1 : ℕ))) := rfl
    have e3 : pyFloatNum ['3', '.', '9']
        = some ((digitsToNat ['3'] : ℚ) + (digitsToNat ['9'] : ℚ) / ((10 : ℚ) ^ (1 : ℕ))) := rfl
    have e4 : pyFloatNum ['4', '.', '1']
        = some ((digitsToNat ['4'] : ℚ) + (digitsToNat ['1'] : ℚ) / ((10 : ℚ) ^ (1 : ℕ))) := rfl
    rw [hmatch (0, 0, 0, 0) "bbox 1.9 2.1 3.9 4.1"
      ['1', '.', '9'] ['2', '.', '1'] ['3', '.', '9'] ['4', '.', '1'] _ _ _ _ rfl e1 e2 e3 e4,
      show digitsToNat ['1'] = 1 from rfl, show digitsToNat ['2'] = 2 from rfl,
      show digitsToNat ['3'] = 3 from rfl, show digitsToNat ['4'] = 4 from rfl,
      show digitsToNat ['9'] = 9 from rfl]
    simp only [Except.ok.injEq, Prod.mk.injEq, pyTrunc]
    norm_num
  · have e1 : pyFloatNum ['-', '1', '.', '5']
        = some (-((digitsToNat ['1'] : ℚ) + (digitsToNat ['5'] : ℚ) / ((10 : ℚ) ^ (1 : ℕ)))) := rfl
    have e2 : pyFloatNum ['2'] = some ((digitsToNat ['2'] : ℚ)) := rfl
    have e3 : pyFloatNum ['3'] = some ((digitsToNat ['3'] : ℚ)) := rfl
    have e4 : pyFloatNum ['4'] = some ((digitsToNat ['4'] : ℚ)) := rfl
    rw [hmatch (7, 7, 7, 7) "foo bbox -1.5 2 3 4 bar"
      ['-', '1', '.', '5'] ['2'] ['3'] ['4'] _ _ _ _ rfl e1 e2 e3 e4,
      show digitsToNat ['1'] = 1 from rfl, show digitsToNat ['2'] = 2 from rfl,
      show digitsToNat ['3'] = 3 from rfl, show digitsToNat ['4'] = 4 from rfl,
      show digitsToNat ['5'] = 5 from rfl]
    simp only [Except.ok.injEq, Prod.mk.injEq, pyTrunc]
    norm_num

/-- C3 witness: the match rule of the amended claim applied at a
concrete input with all hypotheses discharged. -/
theorem C3_witness :
    searchBBox "bbox 5 6 7 8" = some (['5'], ['6'], ['7'], ['8']) ∧
    parse_coordinates (0, 0, 0, 0) "bbox 5 6 7 8" = Except.ok (5, 6, 7, 8) := by
  refine ⟨rfl, ?_⟩
  have h := C3_coordinates_truncation.2.1 (0, 0, 0, 0) "bbox 5 6 7 8"
    ['5'] ['6'] ['7'] ['8']
    ((digitsToNat ['5'] : ℚ)) ((digitsToNat ['6'] : ℚ))
    ((digitsToNat ['7'] : ℚ)) ((digitsToNat ['8'] : ℚ)) rfl rfl rfl rfl rfl
  rw [h, show digitsToNat ['5'] = 5 from rfl, show digitsToNat ['6'] = 6 from rfl,
    show digitsToNat ['7'] = 7 from rfl, show digitsToNat ['8'] = 8 from rfl]
  simp only [Except.ok.injEq, Prod.mk.injEq, pyTrunc]
  norm_num

/-- C5: under the generic policy a direct child markup node is admitted
iff it is not raw text and carries an `id` attribute, irrespective of
tag or class; the example root has exactly the two identified `<p>`
children, in document order. -/
theorem C5_generic_child_admission :
    (∀ (cs : List Markup) (m : Markup) (l : List HOCRNode),
      buildChildren cs m = Except.ok l →
      l.map HOCRNode.html = cs.filter admissibleChild) ∧
    (build (Markup.elem "div" [("id", "d1")]
        [Markup.elem "p" [("id", "p1")] [Markup.text "Hello"],
         Markup.elem "p" [] [Markup.text "No id"],
         Markup.elem "p" [("id", "p2")] [Markup.text "World"]]) none).map
      (fun n => n.children.map HOCRNode.id) = Except.ok [some "p1", some "p2"] := by
  constructor
  · intro cs
    induction cs with
    | nil =>
      intro m l h
      rw [buildChildren] at h
      cases h
      rfl
    | cons x rest ih =>
      intro m l h
      cases x with
      | text s =>
        rw [buildChildren] at h
        simp [admissibleChild, Markup.isText, ih m l h]
      | elem t a csx =>
        rw [buildChildren] at h
        by_cases hid : (attrLookup a "id").isSome
        · rw [if_pos hid] at h
          cases hb : build (Markup.elem t a csx) (some m) with
          | error e => rw [hb] at h; exact absurd h (by simp)
          | ok child =>
            rw [hb] at h
            cases hr : buildChildren rest m with
            | error e => rw [hr] at h; exact absurd h (by simp)
            | ok l' =>
              rw [hr] at h
              cases h
              simp [admissibleChild, Markup.isText, Markup.hasId, hid,
                (build_elem_ok hb).1, ih m l' hr]
        · rw [if_neg hid] at h
          simp [admissibleChild, Markup.isText, Markup.hasId, hid, ih m l h]
  · simp [build, buildChildren]; rfl

/-- C5 witness: the admission rule at a concrete contents list with a
raw-text sibling. -/
theorem C5_witness :
    buildChildren [Markup.text "noise", Markup.elem "p" [("id", "p9")] []]
      (Markup.elem "body" [] [])
      = Except.ok [⟨Markup.elem "p" [("id", "p9")] [], some (Markup.elem "body" [] []),
          some "p9", "", [], (0, 0, 0, 0), none, []⟩] ∧
    ([(⟨Markup.elem "p" [("id", "p9")] [], some (Markup.elem "body" [] []),
        some "p9", "", [], (0, 0, 0, 0), none, []⟩ : HOCRNode)].map HOCRNode.html
      = [Markup.text "noise", Markup.elem "p" [("id", "p9")] []].filter admissibleChild) := by
  have hb : buildChildren [Markup.text "noise", Markup.elem "p" [("id", "p9")] []]
      (Markup.elem "body" [] [])
      = Except.ok [⟨Markup.elem "p" [("id", "p9")] [], some (Markup.elem "body" [] []),
          some "p9", "", [], (0, 0, 0, 0), none, []⟩] := by
    simp [build, buildChildren]; rfl
  exact ⟨hb, C5_generic_child_admission.1 _ _ _ hb⟩

/-- C6: an absent `title` indeed leaves the property list empty, default
coordinates and absent confidence — but a malformed bbox CAN raise: the
title `"bbox 1.2.3 4 5 6"` matches the regex with the non-float field
`"1.2.3"`, so `float()` raises an uncaught `ValueError` during
construction, contradicting the claim's no-raise guarantee. -/
theorem C6_defaults_and_bbox_valueerror :
    (∀ (tag : String) (attrs : List (String × String)) (cs : List Markup)
       (p : Option Markup) (n : HOCRNode),
      attrLookup attrs "title" = none →
      build (Markup.elem tag attrs cs) p = Except.ok n →
      n.props = [] ∧ n.coordinates = (0, 0, 0, 0) ∧ n.confidence = none) ∧
    build (Markup.elem "span" [("id", "w1"), ("title", "bbox 1.2.3 4 5 6")] []) none
      = Except.error () := by
  constructor
  · intro tag attrs cs p n ht hb
    have h5 := (build_elem_ok hb).2.2.2.2.1
    rw [ht] at h5
    have h0 : parse_properties none
        = Except.ok ([], ((((0 : Int), (0 : Int), (0 : Int), (0 : Int))), (none : Option ℚ))) := rfl
    rw [h0] at h5
    injection h5 with h6
    simp only [Prod.mk.injEq] at h6
    exact ⟨h6.1.symm, h6.2.1.symm, h6.2.2.symm⟩
  · simp [build, buildChildren]; rfl

/-- C6 witness: the defaults rule applied to a concrete markup with no
`title` attribute. -/
theorem C6_witness :
    attrLookup [("id", "z")] "title" = none ∧
    ((⟨Markup.elem "p" [("id", "z")] [], none, some "z", "", [], (0, 0, 0, 0), none, []⟩
        : HOCRNode).props = [] ∧
     (⟨Markup.elem "p" [("id", "z")] [], none, some "z", "", [], (0, 0, 0, 0), none, []⟩
        : HOCRNode).coordinates = (0, 0, 0, 0) ∧
     (⟨Markup.elem "p" [("id", "z")] [], none, some "z", "", [], (0, 0, 0, 0), none, []⟩
        : HOCRNode).confidence = none) := by
  have hb : build (Markup.elem "p" [("id", "z")] []) none
      = Except.ok (⟨Markup.elem "p" [("id", "z")] [], none, some "z", "", [],
          (0, 0, 0, 0), none, []⟩ : HOCRNode) := by
    simp [build, buildChildren]; rfl
  exact ⟨rfl, C6_defaults_and_bbox_valueerror.1 "p" [("id", "z")] [] none _ rfl hb⟩

/-- C7: when the semicolon-separated property list of a title is split
as `l1 ++ p :: l2` where `p` overwrites coordinates (to `v`, whatever
the previous value) and nothing in `l2` does, the final coordinates are
`v`; likewise, when `p` is the last property that qualifies for
confidence, the final confidence is the one computed from `p`. -/
theorem C7_last_match_wins :
    (∀ (t : String) (l1 l2 : List String) (p : String) (v : Int × Int × Int × Int)
       (props : List String) (st : (Int × Int × Int × Int) × Option ℚ),
      propsOfTitle (some t) = l1 ++ p :: l2 →
      (∀ old, parse_coordinates old p = Except.ok v) →
      (∀ q ∈ l2, ∀ old, parse_coordinates old q = Except.ok old) →
      parse_properties (some t) = Except.ok (props, st) → st.1 = v) ∧
    (∀ (t : String) (l1 l2 : List String) (p : String) (c : ℚ)
       (props : List String) (st : (Int × Int × Int × Int) × Option ℚ),
      propsOfTitle (some t) = l1 ++ p :: l2 →
      parse_confidence p = some c →
      (∀ q ∈ l2, parse_confidence q = none) →
      parse_properties (some t) = Except.ok (props, st) → st.2 = some c) := by
  constructor
  · intro t l1 l2 p v props st hdec hp hl2 hpp
    have hscan := parse_properties_ok hpp
    rw [hdec, scanProps_append] at hscan
    cases hs1 : scanProps l1 ((0, 0, 0, 0), none) with
    | error e => rw [hs1] at hscan; exact absurd hscan (by simp)
    | ok st1 =>
      rw [hs1] at hscan
      have hscan₁ : scanProps (p :: l2) st1 = Except.ok st := hscan
      rw [scanProps, hp st1.1] at hscan₁
      have hscan₂ : scanProps l2 (v,
          match parse_confidence p with
          | some c => some c
          | none => st1.2) = Except.ok st := hscan₁
      have hres := scanProps_coords_const hl2 hscan₂
      exact hres
  · intro t l1 l2 p c props st hdec hp hl2 hpp
    have hscan := parse_properties_ok hpp
    rw [hdec, scanProps_append] at hscan
    cases hs1 : scanProps l1 ((0, 0, 0, 0), none) with
    | error e => rw [hs1] at hscan; exact absurd hscan (by simp)
    | ok st1 =>
      rw [hs1] at hscan
      have hscan₁ : scanProps (p :: l2) st1 = Except.ok st := hscan
      rw [scanProps] at hscan₁
      cases hc : parse_coordinates st1.1 p with
      | error e => rw [hc] at hscan₁; exact absurd hscan₁ (by simp)
      | ok coords =>
        rw [hc, hp] at hscan₁
        have hscan₂ : scanProps l2 (coords, some c) = Except.ok st := hscan₁
        have hres := scanProps_conf_const hl2 hscan₂
        exact hres

/-- C7 witness: a title with two bbox-bearing properties and two
confidence-bearing properties; the last ones win. -/
theorem C7_witness :
    propsOfTitle (some "bbox 1 2 3 4;bbox 5 6 7 8;x_wconf 10 20;x_wconf 30")
      = ["bbox 1 2 3 4"] ++ "bbox 5 6 7 8" :: ["x_wconf 10 20", "x_wconf 30"] ∧
    ((((5, 6, 7, 8) : Int × Int × Int × Int),
        some (((digitsToNat ['3', '0'] : ℚ) + 0) / ((1 : ℕ) : ℚ))).1 = (5, 6, 7, 8)) ∧
    ((((5, 6, 7, 8) : Int × Int × Int × Int),
        some (((digitsToNat ['3', '0'] : ℚ) + 0) / ((1 : ℕ) : ℚ))).2
      = some (((digitsToNat ['3', '0'] : ℚ) + 0) / ((1 : ℕ) : ℚ))) ∧
    (((digitsToNat ['3', '0'] : ℚ) + 0) / ((1 : ℕ) : ℚ)) = 30 := by
  have hpp : parse_properties (some "bbox 1 2 3 4;bbox 5 6 7 8;x_wconf 10 20;x_wconf 30")
      = Except.ok (["bbox 1 2 3 4", "bbox 5 6 7 8", "x_wconf 10 20", "x_wconf 30"],
          ((5, 6, 7, 8), some (((digitsToNat ['3', '0'] : ℚ) + 0) / ((1 : ℕ) : ℚ)))) := rfl
  have hl2 : ∀ q ∈ (["x_wconf 10 20", "x_wconf 30"] : List String),
      ∀ old, parse_coordinates old q = Except.ok old := by
    intro q hq old
    rcases List.mem_cons.mp hq with rfl | hq
    · rfl
    · rcases List.mem_cons.mp hq with rfl | hq
      · rfl
      · cases hq
  refine ⟨rfl, ?_, ?_, ?_⟩
  · exact C7_last_match_wins.1 "bbox 1 2 3 4;bbox 5 6 7 8;x_wconf 10 20;x_wconf 30"
      ["bbox 1 2 3 4"] ["x_wconf 10 20", "x_wconf 30"]
      "bbox 5 6 7 8" (5, 6, 7, 8) _ _ rfl (fun old => rfl) hl2 hpp
  · exact C7_last_match_wins.2 "bbox 1 2 3 4;bbox 5 6 7 8;x_wconf 10 20;x_wconf 30"
      ["bbox 1 2 3 4", "bbox 5 6 7 8", "x_wconf 10 20"] []
      "x_wconf 30" (((digitsToNat ['3', '0'] : ℚ) + 0) / ((1 : ℕ) : ℚ)) _ _ rfl rfl
      (fun q hq => absurd hq (List.not_mem_nil q)) hpp
  · rw [show digitsToNat ['3', '0'] = 30 from rfl]
    norm_num

/-- C8: every child of every node in a constructed tree records the
node that constructed it as its parent (object identity is modelled by
the parent's markup, which a node stores in `html`). -/
theorem C8_parent_backreference :
    ∀ (m : Markup) (p : Option Markup) (root x c : HOCRNode),
      build m p = Except.ok root → Subnode root x → c ∈ x.children →
      c.parent = some x.html := by
  intro m p root x c hb hs hc
  obtain ⟨mx, px, hx⟩ := subnode_built hs m p hb
  cases mx with
  | text s => rw [build] at hx; exact absurd hx (by simp)
  | elem t a cs =>
    obtain ⟨hhtml, -, -, -, -, hbc⟩ := build_elem_ok hx
    obtain ⟨mc, hmc⟩ := buildChildren_mem_built hbc c hc
    rw [(build_ok_html_parent hmc).2, hhtml]

/-- The child node of the C8 witness tree. -/
def c8Child : HOCRNode :=
  ⟨Markup.elem "p" [("id", "k")] [],
   some (Markup.elem "div" [("id", "r")] [Markup.elem "p" [("id", "k")] []]),
   some "k", "", [], (0, 0, 0, 0), none, []⟩

/-- The root node of the C8 witness tree. -/
def c8Root : HOCRNode :=
  ⟨Markup.elem "div" [("id", "r")] [Markup.elem "p" [("id", "k")] []], none, some "r", "", [],
   (0, 0, 0, 0), none, [c8Child]⟩

/-- C8 witness: parent back-reference on a concrete two-node tree. -/
theorem C8_witness :
    build (Markup.elem "div" [("id", "r")] [Markup.elem "p" [("id", "k")] []]) none
      = Except.ok c8Root ∧
    c8Child ∈ c8Root.children ∧
    c8Child.parent = some c8Root.html := by
  have hb : build (Markup.elem "div" [("id", "r")] [Markup.elem "p" [("id", "k")] []]) none
      = Except.ok c8Root := by
    simp [build, buildChildren, c8Root, c8Child]
    try rfl
  have hmem : c8Child ∈ c8Root.children := by
    rw [show c8Root.children = [c8Child] from rfl]
    exact List.mem_singleton_self _
  exact ⟨hb, hmem, C8_parent_backreference _ none c8Root c8Root c8Child hb (Subnode.refl _) hmem⟩

/-- C10 (implicit): in the generic variant, a node with children whose
first class token is not in the separator table — including the
class-less document root, whose `ocr_class` defaults to `""` — joins its
children's texts with the fallback separator `"\n"`. -/
theorem C10_fallback_separator :
    (∀ (html : Markup) (parent : Option Markup) (id : Option String) (klass : String)
       (props : List String) (coords : Int × Int × Int × Int) (conf : Option ℚ)
       (children : List HOCRNode),
      children ≠ [] →
      klass ∉ (["ocr_page", "ocr_area", "ocr_par", "ocr_line"] : List String) →
      ocr_text (HOCRNode.mk html parent id klass props coords conf children)
        = String.intercalate "\n" (children.map ocr_text)) ∧
    (∀ (tag : String) (attrs : List (String × String)) (cs : List Markup)
       (p : Option Markup) (n : HOCRNode),
      attrLookup attrs "class" = none →
      build (Markup.elem tag attrs cs) p = Except.ok n → n.ocr_class = "") := by
  constructor
  · intro html parent id klass props coords conf children hne hcl
    cases children with
    | nil => exact absurd rfl hne
    | cons c cs =>
      simp [ocr_text, ocrTextList_eq_map, getSep_default hcl]
  · intro tag attrs cs p n hcl hb
    have h4 := (build_elem_ok hb).2.2.2.1
    have h0 : getOcrClass attrs = Except.ok "" := by simp only [getOcrClass, hcl]
    rw [h0] at h4
    injection h4 with h5
    exact h5.symm

/-- C10 witness: the fallback join at a concrete class-less node with
one child. -/
theorem C10_witness :
    (([⟨Markup.text "w", none, none, "", [], (0, 0, 0, 0), none, []⟩] : List HOCRNode) ≠ []) ∧
    ("" ∉ (["ocr_page", "ocr_area", "ocr_par", "ocr_line"] : List String)) ∧
    ocr_text (HOCRNode.mk (Markup.elem "body" [] []) none none "" [] (0, 0, 0, 0) none
        [⟨Markup.text "w", none, none, "", [], (0, 0, 0, 0), none, []⟩])
      = String.intercalate "\n"
          ([(⟨Markup.text "w", none, none, "", [], (0, 0, 0, 0), none, []⟩ : HOCRNode)].map
            ocr_text) :=
  ⟨by simp, by decide, C10_fallback_separator.1 _ _ _ _ _ _ _ _ (by simp) (by decide)⟩

end HocrParser
